import Mathlib

/-!
Shallow embedding of the concurrent fan-out search engine of
`internal/search/search.go` (package `search`) of the personal-knowledge-base
repository, together with proofs of the specified properties.

Modelling conventions:
* A Go slice is `Option (List α)`: `none` is the nil slice, `some l` a non-nil
  slice holding `l`.  The distinction is observable (the code returns both and
  its tests assert non-nilness), so it is kept.
* A Go `error` value is observed only through its message, so it is modelled as
  `Option String` (`none` = nil error).
* `context.Context` is opaque to the engine (it is only forwarded), so it is a
  tagged value.
* The fan-in channel of `Engine.Search` is drained in scheduler-dependent
  order in the source; here the drain is modelled in connector order.  Every
  property proved below is insensitive to that order.
-/

set_option autoImplicit false

namespace PKB

/-- An opaque stand-in for Go's `context.Context`: the engine only forwards it
to connectors, so a tagged value suffices. -/
structure Ctx where
  id : Nat
deriving DecidableEq, Repr

/-- A single search hit (`connectors.Result`). -/
structure Result where
  title : String
  snippet : String
  url : String
  source : String
deriving DecidableEq, Repr

/-- A Go slice value: `none` is the nil slice, `some l` a non-nil slice whose
elements are `l`. -/
abbrev GoSlice (α : Type) : Type := Option (List α)

/-- The elements of a Go slice (the nil slice has none). -/
def GoSlice.elems {α : Type} : GoSlice α → List α
  | none => []
  | some l => l

/-- Go's `append(s, xs...)`: appending zero elements returns the slice
unchanged (a nil slice stays nil); appending at least one element yields a
non-nil slice holding the old elements followed by the new ones. -/
def GoSlice.appendElems {α : Type} : GoSlice α → List α → GoSlice α
  | s, [] => s
  | s, xs => some (s.elems ++ xs)

/-- A connector (the `connectors.Connector` interface): a stable `Name()` and a
`Search(ctx, query)` behaviour returning a result slice and an error. -/
structure Connector where
  name : String
  search : Ctx → String → GoSlice Result × Option String

/-- The search engine (`search.Engine`): a fixed ordered collection of
connectors, set at construction. -/
structure Engine where
  connectors : List Connector

/-- `search.New`: builds an engine holding exactly the given connectors. -/
def New (cs : List Connector) : Engine := ⟨cs⟩

/-- The record each goroutine sends on the fan-in channel (the local `result`
struct in `Engine.Search`): the connector's results, error, and `Name()`. -/
structure Outcome where
  results : GoSlice Result
  err : Option String
  name : String
deriving DecidableEq, Repr

/-- One call made to a connector's `Search` method: the connector's name
together with the context and query it received as arguments. -/
structure Invocation where
  name : String
  ctx : Ctx
  query : String
deriving DecidableEq, Repr

/-- The body of the goroutine launched for connector `c`: it calls
`c.Search(ctx, query)` once and sends the outcome on the channel.  The
invocation record captures the arguments that single call received. -/
def runConnector (ctx : Ctx) (query : String) (c : Connector) :
    Outcome × Invocation :=
  (⟨(c.search ctx query).1, (c.search ctx query).2, c.name⟩,
   ⟨c.name, ctx, query⟩)

/-- The outcomes collected from the channel once every goroutine has finished.
The source drains the channel in scheduler-dependent order; the model uses
connector order (all claims are order-insensitive). -/
def dispatch (ctx : Ctx) (query : String) (cs : List Connector) :
    List Outcome :=
  cs.map (fun c => (runConnector ctx query c).1)

/-- The trace of `Search` calls made on connectors during one engine call:
one invocation per dispatched connector, in dispatch order. -/
def callTrace (ctx : Ctx) (query : String) (cs : List Connector) :
    List Invocation :=
  cs.map (fun c => (runConnector ctx query c).2)

/-- The fan-in loop of `Engine.Search` (`for r := range ch`): a failed outcome
is wrapped as `fmt.Errorf("%s: %w", r.name, r.err)` and appended to `errs`;
a successful outcome's results are appended to `all`.  Both accumulators start
nil/empty (`var all []connectors.Result; var errs []error`). -/
def drain : GoSlice Result → List String → List Outcome →
    GoSlice Result × List String
  | all, errs, [] => (all, errs)
  | all, errs, o :: rest =>
    match o.err with
    | some msg => drain all (errs ++ [o.name ++ ": " ++ msg]) rest
    | none => drain (all.appendElems o.results.elems) errs rest

/-- The messages of the error list built by the fan-in loop: one
`"<name>: <underlying error>"` entry per failed outcome, in drain order. -/
def failMsgs : List Outcome → List String
  | [] => []
  | o :: rest =>
    match o.err with
    | some msg => (o.name ++ ": " ++ msg) :: failMsgs rest
    | none => failMsgs rest

/-- The elements accumulated by the fan-in loop: the concatenation of the
successful outcomes' result elements, in drain order. -/
def succElems : List Outcome → List Result
  | [] => []
  | o :: rest =>
    match o.err with
    | some _ => succElems rest
    | none => o.results.elems ++ succElems rest

/-- Go's `%v` rendering of a slice of errors: the messages space-separated
inside square brackets. -/
def joinSpace : List String → String
  | [] => ""
  | [s] => s
  | s :: rest => s ++ " " ++ joinSpace rest

/-- The aggregate total-failure message,
`fmt.Errorf("all connectors failed: %v", errs)`. -/
def allFailedMsg (errs : List String) : String :=
  "all connectors failed: " ++ ("[" ++ joinSpace errs ++ "]")

/-- The fan-out / fan-in / aggregation core applied to a list of connectors:
launch one goroutine per connector, drain the channel, and return the
aggregate error when the error count equals the connector count, else the
accumulated results with a nil error.  In the source `all` and `errs` are
bound once; here the pure `drain` expression is repeated verbatim instead. -/
def searchConnectors (cs : List Connector) (ctx : Ctx) (query : String) :
    GoSlice Result × Option String :=
  if (drain none [] (dispatch ctx query cs)).2.length = cs.length then
    (none, some (allFailedMsg (drain none [] (dispatch ctx query cs)).2))
  else ((drain none [] (dispatch ctx query cs)).1, none)

/-- `Engine.Search` from `internal/search/search.go`: with zero connectors it
returns `(nil, nil)`; otherwise it fans out to every connector and
aggregates. -/
def Engine.Search (e : Engine) (ctx : Ctx) (query : String) :
    GoSlice Result × Option String :=
  if e.connectors.length = 0 then (none, none)
  else searchConnectors e.connectors ctx query

/-- Modelled from the spec: the repository's `SearchWithSources` implementation
is not under src/ (only its tests and callers are).  Per the spec's filter
rules, a nil or empty `sources` slice selects every connector, and a non-empty
one selects exactly the connectors whose `Name()` exactly matches one of the
given strings; unmatched names select nothing and are silently ignored. -/
def selectConnectors (cs : List Connector) (sources : GoSlice String) :
    List Connector :=
  if sources.elems = [] then cs
  else cs.filter (fun c => c.name ∈ sources.elems)

/-- Modelled from the spec: the repository's `Engine.SearchWithSources`
implementation is not under src/ (only its tests and callers are).  Per the
spec: an empty selection (zero connectors, or a filter matching none) is the
degenerate success case and returns a present-but-empty collection with a nil
error; otherwise the selected connectors are fanned out and aggregated with
the same partial/total-failure policy as `Engine.Search`. -/
def Engine.SearchWithSources (e : Engine) (ctx : Ctx) (query : String)
    (sources : GoSlice String) : GoSlice Result × Option String :=
  if (selectConnectors e.connectors sources).length = 0 then (some [], none)
  else searchConnectors (selectConnectors e.connectors sources) ctx query

/-- The trace of connector `Search` calls one `Engine.Search` call makes. -/
def Engine.searchTrace (e : Engine) (ctx : Ctx) (query : String) :
    List Invocation :=
  callTrace ctx query e.connectors

/-- Modelled from the spec: the trace of connector `Search` calls one
`SearchWithSources` call makes — one per selected connector. -/
def Engine.searchWithSourcesTrace (e : Engine) (ctx : Ctx) (query : String)
    (sources : GoSlice String) : List Invocation :=
  callTrace ctx query (selectConnectors e.connectors sources)

/-- `name` occurs as a contiguous substring of `msg`. -/
def mentions (msg name : String) : Prop :=
  name.data <:+: msg.data

/-! ### Basic lemmas about the embedding -/

theorem GoSlice.elems_appendElems {α : Type} (s : GoSlice α) (xs : List α) :
    (s.appendElems xs).elems = s.elems ++ xs := by
  cases xs with
  | nil => simp [GoSlice.appendElems]
  | cons x xs => rfl

theorem GoSlice.appendElems_nil {α : Type} (s : GoSlice α) :
    s.appendElems [] = s := rfl

theorem drain_snd (outs : List Outcome) :
    ∀ (all : GoSlice Result) (errs : List String),
      (drain all errs outs).2 = errs ++ failMsgs outs := by
  induction outs with
  | nil => intro all errs; simp [drain, failMsgs]
  | cons o rest ih =>
    intro all errs
    cases h : o.err with
    | some msg => simp [drain, failMsgs, h, ih]
    | none => simp [drain, failMsgs, h, ih]

theorem drain_fst_elems (outs : List Outcome) :
    ∀ (all : GoSlice Result) (errs : List String),
      (drain all errs outs).1.elems = all.elems ++ succElems outs := by
  induction outs with
  | nil => intro all errs; simp [drain, succElems]
  | cons o rest ih =>
    intro all errs
    cases h : o.err with
    | some msg => simp [drain, succElems, h, ih]
    | none => simp [drain, succElems, h, ih, GoSlice.elems_appendElems]

theorem drain_fst_none (outs : List Outcome) :
    ∀ (errs : List String), succElems outs = [] →
      (drain none errs outs).1 = none := by
  induction outs with
  | nil => intro errs _; rfl
  | cons o rest ih =>
    intro errs hempty
    cases h : o.err with
    | some msg =>
      rw [succElems, h] at hempty
      simp only [drain, h]
      exact ih _ hempty
    | none =>
      rw [succElems, h] at hempty
      rcases List.append_eq_nil.mp hempty with ⟨h1, h2⟩
      simp only [drain, h, h1, GoSlice.appendElems_nil]
      exact ih _ h2

theorem failMsgs_length_le (outs : List Outcome) :
    (failMsgs outs).length ≤ outs.length := by
  induction outs with
  | nil => simp [failMsgs]
  | cons o rest ih =>
    cases h : o.err with
    | some msg => simp [failMsgs, h]; omega
    | none => simp [failMsgs, h]; omega

theorem failMsgs_length_lt {outs : List Outcome} {o : Outcome}
    (ho : o ∈ outs) (hs : o.err = none) :
    (failMsgs outs).length < outs.length := by
  induction outs with
  | nil => cases ho
  | cons a rest ih =>
    rcases List.mem_cons.mp ho with rfl | hmem
    · rw [failMsgs, hs]
      have := failMsgs_length_le rest
      simp; omega
    · cases h : a.err with
      | some msg => rw [failMsgs, h]; simpa using ih hmem
      | none =>
        rw [failMsgs, h]
        have := failMsgs_length_le rest
        simp; omega

theorem failMsgs_length_eq {outs : List Outcome}
    (h : ∀ o ∈ outs, o.err ≠ none) :
    (failMsgs outs).length = outs.length := by
  induction outs with
  | nil => rfl
  | cons o rest ih =>
    cases ho : o.err with
    | some msg =>
      rw [failMsgs, ho]
      have := ih (fun a ha => h a (List.mem_cons_of_mem o ha))
      simp [this]
    | none => exact absurd ho (h o (List.mem_cons_self o rest))

theorem dispatch_length (ctx : Ctx) (q : String) (cs : List Connector) :
    (dispatch ctx q cs).length = cs.length :=
  List.length_map cs _

theorem succElems_cons_some {o : Outcome} {rest : List Outcome} {m : String}
    (h : o.err = some m) : succElems (o :: rest) = succElems rest := by
  rw [succElems, h]

theorem succElems_cons_none {o : Outcome} {rest : List Outcome}
    (h : o.err = none) :
    succElems (o :: rest) = o.results.elems ++ succElems rest := by
  rw [succElems, h]

theorem succElems_dispatch (ctx : Ctx) (q : String) (cs : List Connector) :
    succElems (dispatch ctx q cs)
      = ((cs.filter (fun c => ((c.search ctx q).2).isNone)).map
          (fun c => ((c.search ctx q).1).elems)).flatten := by
  induction cs with
  | nil => rfl
  | cons c rest ih =>
    rw [dispatch] at ih ⊢
    rw [List.map_cons, List.filter_cons]
    cases h : (c.search ctx q).2 with
    | some m =>
      rw [succElems_cons_some (show ((runConnector ctx q c).1).err = some m from h)]
      rw [ih]
      simp [h]
    | none =>
      rw [succElems_cons_none (show ((runConnector ctx q c).1).err = none from h)]
      rw [ih]
      simp [h, runConnector]

theorem failMsgs_dispatch_mem {ctx : Ctx} {q : String} {cs : List Connector}
    {c : Connector} {m : String} (hc : c ∈ cs)
    (hm : (c.search ctx q).2 = some m) :
    (c.name ++ ": " ++ m) ∈ failMsgs (dispatch ctx q cs) := by
  induction cs with
  | nil => cases hc
  | cons a rest ih =>
    rcases List.mem_cons.mp hc with rfl | hmem
    · simp only [dispatch, List.map_cons, failMsgs, runConnector, hm]
      exact List.mem_cons_self _ _
    · cases h : (a.search ctx q).2 with
      | some m2 =>
        simp only [dispatch, List.map_cons, failMsgs, runConnector, h]
        exact List.mem_cons_of_mem _ (ih hmem)
      | none =>
        simp only [dispatch, List.map_cons, failMsgs, runConnector, h]
        exact ih hmem

theorem failMsgs_dispatch_length_eq {ctx : Ctx} {q : String}
    {cs : List Connector} (h : ∀ c ∈ cs, (c.search ctx q).2 ≠ none) :
    (failMsgs (dispatch ctx q cs)).length = cs.length := by
  rw [failMsgs_length_eq, dispatch_length]
  intro o ho
  rcases List.mem_map.mp ho with ⟨c, hc, rfl⟩
  exact h c hc

theorem failMsgs_dispatch_length_lt {ctx : Ctx} {q : String}
    {cs : List Connector} {c : Connector} (hc : c ∈ cs)
    (h : (c.search ctx q).2 = none) :
    (failMsgs (dispatch ctx q cs)).length < cs.length := by
  have hmem : (runConnector ctx q c).1 ∈ dispatch ctx q cs :=
    List.mem_map.mpr ⟨c, hc, rfl⟩
  have := failMsgs_length_lt hmem (by simpa [runConnector] using h)
  rwa [dispatch_length] at this

/-! ### Lemmas about `mentions` -/

theorem mentions_refl (s : String) : mentions s s := List.infix_rfl

theorem mentions_append_left {t : String} (u : String) {s : String}
    (h : mentions t s) : mentions (u ++ t) s := by
  unfold mentions at h ⊢
  rw [String.data_append]
  exact h.trans (List.suffix_append _ _).isInfix

theorem mentions_append_right {t : String} (u : String) {s : String}
    (h : mentions t s) : mentions (t ++ u) s := by
  unfold mentions at h ⊢
  rw [String.data_append]
  exact h.trans (List.prefix_append _ _).isInfix

theorem mentions_joinSpace {l : List String} {s : String} (h : s ∈ l) :
    mentions (joinSpace l) s := by
  induction l with
  | nil => cases h
  | cons a rest ih =>
    cases rest with
    | nil =>
      rcases List.mem_singleton.mp h with rfl
      exact mentions_refl s
    | cons b r =>
      rcases List.mem_cons.mp h with rfl | hmem
      · exact mentions_append_right _ (mentions_append_right _ (mentions_refl s))
      · exact mentions_append_left _ (ih hmem)

theorem mentions_allFailedMsg {errs : List String} {s : String}
    (h : s ∈ errs) : mentions (allFailedMsg errs) s := by
  unfold allFailedMsg
  exact mentions_append_left _
    (mentions_append_right _ (mentions_append_left _ (mentions_joinSpace h)))

theorem mentions_of_mentions_append {msg s t : String}
    (h : mentions msg (s ++ t)) : mentions msg s := by
  unfold mentions at h ⊢
  refine List.IsInfix.trans ?_ h
  rw [String.data_append]
  exact (List.prefix_append _ _).isInfix

/-! ### Characterizations of the aggregation core -/

theorem searchConnectors_eq (cs : List Connector) (ctx : Ctx) (q : String) :
    searchConnectors cs ctx q =
      if (failMsgs (dispatch ctx q cs)).length = cs.length then
        (none, some (allFailedMsg (failMsgs (dispatch ctx q cs))))
      else ((drain none [] (dispatch ctx q cs)).1, none) := by
  unfold searchConnectors
  rw [show (drain none [] (dispatch ctx q cs)).2 = failMsgs (dispatch ctx q cs)
    from by simpa using drain_snd (dispatch ctx q cs) none []]

theorem searchConnectors_success {cs : List Connector} {ctx : Ctx} {q : String}
    {c0 : Connector} (hc0 : c0 ∈ cs) (hs0 : (c0.search ctx q).2 = none) :
    (searchConnectors cs ctx q).2 = none ∧
    (searchConnectors cs ctx q).1.elems
      = ((cs.filter (fun c => ((c.search ctx q).2).isNone)).map
          (fun c => ((c.search ctx q).1).elems)).flatten := by
  rw [searchConnectors_eq,
    if_neg (Nat.ne_of_lt (failMsgs_dispatch_length_lt hc0 hs0))]
  refine ⟨rfl, ?_⟩
  rw [show ((drain none [] (dispatch ctx q cs)).1, (none : Option String)).1
      = (drain none [] (dispatch ctx q cs)).1 from rfl]
  rw [drain_fst_elems (dispatch ctx q cs) none []]
  simp [succElems_dispatch, GoSlice.elems]

theorem selectConnectors_of_elems_ne_nil {cs : List Connector}
    {srcs : GoSlice String} (h : srcs.elems ≠ []) :
    selectConnectors cs srcs = cs.filter (fun c => c.name ∈ srcs.elems) := by
  unfold selectConnectors
  rw [if_neg h]

/-! ### Concrete fixtures used by the witnesses -/

def ctx0 : Ctx := ⟨0⟩

def resA : Result := ⟨"Result A", "", "", "mock1"⟩

def resB : Result := ⟨"Result B", "", "", "mock2"⟩

def goodConn : Connector := ⟨"mock1", fun _ _ => (some [resA], none)⟩

def otherConn : Connector := ⟨"mock2", fun _ _ => (some [resB], none)⟩

def badConn : Connector := ⟨"mock2", fun _ _ => (none, some "connection refused")⟩

def emptyConn : Connector := ⟨"mock3", fun _ _ => (none, none)⟩

def driveDoc : Result := ⟨"Drive Doc", "", "", "gdrive"⟩

def gdriveConn : Connector := ⟨"gdrive", fun _ _ => (some [driveDoc], none)⟩

def gmailConn : Connector := ⟨"gmail", fun _ _ => (some [⟨"Email", "", "", "gmail"⟩], none)⟩

def gdriveFilter : GoSlice String := some ["gdrive"]

def unknownFilter : GoSlice String := some ["nonexistent"]

/-! ### The claims -/

/-- C1: for every engine, if at least one connector's `Search` succeeds, then
`Engine.Search` returns a nil error and a result collection whose contents are
exactly the concatenation of the successful connectors' results; no failed
connector's error contributes to the return value in any way. -/
theorem search_partial_failure_tolerance (e : Engine) (ctx : Ctx) (q : String)
    (hsucc : ∃ c ∈ e.connectors, (c.search ctx q).2 = none) :
    (e.Search ctx q).2 = none ∧
    (e.Search ctx q).1.elems
      = ((e.connectors.filter (fun c => ((c.search ctx q).2).isNone)).map
          (fun c => ((c.search ctx q).1).elems)).flatten := by
  obtain ⟨c0, hc0, hs0⟩ := hsucc
  have hlen : e.connectors.length ≠ 0 := by
    simpa [List.length_eq_zero] using List.ne_nil_of_mem hc0
  unfold Engine.Search
  rw [if_neg hlen]
  exact searchConnectors_success hc0 hs0

/-- Witness for C1 at the spec's concrete partial-failure scenario: `mock1`
succeeds with one result while `mock2` fails with "connection refused". -/
theorem search_partial_failure_tolerance_witness :
    (∃ c ∈ (New [goodConn, badConn]).connectors,
      (c.search ctx0 "test").2 = none) ∧
    ((New [goodConn, badConn]).Search ctx0 "test").2 = none ∧
    ((New [goodConn, badConn]).Search ctx0 "test").1.elems
      = (((New [goodConn, badConn]).connectors.filter
            (fun c => ((c.search ctx0 "test").2).isNone)).map
          (fun c => ((c.search ctx0 "test").1).elems)).flatten :=
  ⟨by decide,
   search_partial_failure_tolerance (New [goodConn, badConn]) ctx0 "test"
     (by decide)⟩

/-- C2: for every engine with at least one connector, if every connector's
`Search` fails, then `Engine.Search` returns the nil collection and a non-nil
error; the error message mentions every connector's name, and each
per-connector failure appears in it annotated as `"<name>: <underlying error>"`. -/
theorem search_total_failure (e : Engine) (ctx : Ctx) (q : String)
    (hne : e.connectors ≠ [])
    (hfail : ∀ c ∈ e.connectors, (c.search ctx q).2 ≠ none) :
    (e.Search ctx q).1 = none ∧
    (e.Search ctx q).2
      = some (allFailedMsg (failMsgs (dispatch ctx q e.connectors))) ∧
    ∀ c ∈ e.connectors,
      mentions (allFailedMsg (failMsgs (dispatch ctx q e.connectors))) c.name ∧
      ∀ m, (c.search ctx q).2 = some m →
        mentions (allFailedMsg (failMsgs (dispatch ctx q e.connectors)))
          (c.name ++ ": " ++ m) := by
  have hlen : e.connectors.length ≠ 0 := by
    simpa [List.length_eq_zero] using hne
  unfold Engine.Search
  rw [if_neg hlen, searchConnectors_eq,
    if_pos (failMsgs_dispatch_length_eq hfail)]
  refine ⟨rfl, rfl, ?_⟩
  intro c hc
  obtain ⟨m, hm⟩ := Option.ne_none_iff_exists'.mp (hfail c hc)
  have hment := mentions_allFailedMsg (failMsgs_dispatch_mem hc hm)
  refine ⟨mentions_of_mentions_append (mentions_of_mentions_append hment), ?_⟩
  intro m' hm'
  rw [hm] at hm'
  cases hm'
  exact hment

/-- Witness for C2 at the spec's concrete total-failure scenario: the single
connector `mock2` fails with "connection refused". -/
theorem search_total_failure_witness :
    ((New [badConn]).connectors ≠ [] ∧
      ∀ c ∈ (New [badConn]).connectors, (c.search ctx0 "q").2 ≠ none) ∧
    ((New [badConn]).Search ctx0 "q").1 = none ∧
    ((New [badConn]).Search ctx0 "q").2
      = some (allFailedMsg (failMsgs (dispatch ctx0 "q" (New [badConn]).connectors))) ∧
    ∀ c ∈ (New [badConn]).connectors,
      mentions (allFailedMsg (failMsgs (dispatch ctx0 "q" (New [badConn]).connectors))) c.name ∧
      ∀ m, (c.search ctx0 "q").2 = some m →
        mentions (allFailedMsg (failMsgs (dispatch ctx0 "q" (New [badConn]).connectors)))
          (c.name ++ ": " ++ m) :=
  ⟨⟨List.cons_ne_nil _ _, by decide⟩,
   search_total_failure (New [badConn]) ctx0 "q" (List.cons_ne_nil _ _)
     (by decide)⟩

/-- C3: evaluating the code at the failing input.  With zero connectors,
`Engine.Search` returns `(nil, nil)` — the first component is the absent
(`none`) collection, not a present-but-empty one, contradicting the
repository's own test `TestEngine_Search_NoConnectors` (BUG-014), which
asserts a non-nil empty slice. -/
theorem search_no_connectors_returns_nil_slice :
    (New []).Search ctx0 "test" = (none, none) ∧
    (New []).Search ctx0 "test" ≠ (some [], none) := by
  exact ⟨by decide, by decide⟩

/-- C10: for every engine, if at least one connector succeeds and every
successful connector returns zero results, `Engine.Search` returns the nil
(absent) collection and a nil error — indistinguishable from the
zero-connector return value. -/
theorem search_all_successes_empty_returns_nil (e : Engine) (ctx : Ctx)
    (q : String)
    (hsucc : ∃ c ∈ e.connectors, (c.search ctx q).2 = none)
    (hempty : ∀ c ∈ e.connectors, (c.search ctx q).2 = none →
      ((c.search ctx q).1).elems = []) :
    e.Search ctx q = (none, none) := by
  obtain ⟨c0, hc0, hs0⟩ := hsucc
  have hlen : e.connectors.length ≠ 0 := by
    simpa [List.length_eq_zero] using List.ne_nil_of_mem hc0
  unfold Engine.Search
  rw [if_neg hlen, searchConnectors_eq,
    if_neg (Nat.ne_of_lt (failMsgs_dispatch_length_lt hc0 hs0))]
  have hse : succElems (dispatch ctx q e.connectors) = [] := by
    rw [succElems_dispatch]
    rw [List.flatten_eq_nil_iff]
    intro l hl
    rcases List.mem_map.mp hl with ⟨c, hcf, rfl⟩
    rcases List.mem_filter.mp hcf with ⟨hcm, hp⟩
    exact hempty c hcm (Option.isNone_iff_eq_none.mp hp)
  rw [drain_fst_none (dispatch ctx q e.connectors) [] hse]

/-- Witness for C10: one connector succeeding with the nil result slice and
one failing connector; the call returns `(nil, nil)`. -/
theorem search_all_successes_empty_returns_nil_witness :
    ((∃ c ∈ (New [emptyConn, badConn]).connectors,
        (c.search ctx0 "q").2 = none) ∧
      ∀ c ∈ (New [emptyConn, badConn]).connectors,
        (c.search ctx0 "q").2 = none → ((c.search ctx0 "q").1).elems = []) ∧
    (New [emptyConn, badConn]).Search ctx0 "q" = (none, none) :=
  ⟨⟨by decide, by decide⟩,
   search_all_successes_empty_returns_nil (New [emptyConn, badConn]) ctx0 "q"
     (by decide) (by decide)⟩

/-- C4: for every engine whose connectors all succeed, `Engine.Search` returns
a nil error, a result collection whose size is the sum of the per-connector
result counts, and every result of every connector is present in it. -/
theorem search_fanout_completeness (e : Engine) (ctx : Ctx) (q : String)
    (hall : ∀ c ∈ e.connectors, (c.search ctx q).2 = none) :
    (e.Search ctx q).2 = none ∧
    (e.Search ctx q).1.elems.length
      = (e.connectors.map (fun c => ((c.search ctx q).1).elems.length)).sum ∧
    ∀ c ∈ e.connectors, ∀ r ∈ ((c.search ctx q).1).elems,
      r ∈ (e.Search ctx q).1.elems := by
  by_cases hnil : e.connectors = []
  · unfold Engine.Search
    rw [if_pos (by rw [hnil]; rfl)]
    refine ⟨rfl, by simp [hnil, GoSlice.elems], ?_⟩
    intro c hc
    rw [hnil] at hc
    cases hc
  · obtain ⟨c0, hc0⟩ := List.exists_mem_of_ne_nil _ hnil
    have hlen : e.connectors.length ≠ 0 := by
      simpa [List.length_eq_zero] using hnil
    have hfil : e.connectors.filter (fun c => ((c.search ctx q).2).isNone)
        = e.connectors :=
      List.filter_eq_self.mpr (fun c hc => by simp [hall c hc])
    have hchar := searchConnectors_success hc0 (hall c0 hc0)
    unfold Engine.Search
    rw [if_neg hlen]
    refine ⟨hchar.1, ?_, ?_⟩
    · rw [hchar.2, hfil, List.length_flatten, List.map_map]
      rfl
    · intro c hc r hr
      rw [hchar.2, hfil]
      exact List.mem_flatten.mpr
        ⟨_, List.mem_map_of_mem (fun c => ((c.search ctx q).1).elems) hc, hr⟩

/-- Witness for C4 at the spec's concrete two-connector scenario: `mock1` and
`mock2` each succeed with one result. -/
theorem search_fanout_completeness_witness :
    (∀ c ∈ (New [goodConn, otherConn]).connectors,
      (c.search ctx0 "test query").2 = none) ∧
    ((New [goodConn, otherConn]).Search ctx0 "test query").2 = none ∧
    ((New [goodConn, otherConn]).Search ctx0 "test query").1.elems.length
      = ((New [goodConn, otherConn]).connectors.map
          (fun c => ((c.search ctx0 "test query").1).elems.length)).sum ∧
    ∀ c ∈ (New [goodConn, otherConn]).connectors,
      ∀ r ∈ ((c.search ctx0 "test query").1).elems,
        r ∈ ((New [goodConn, otherConn]).Search ctx0 "test query").1.elems :=
  ⟨by decide,
   search_fanout_completeness (New [goodConn, otherConn]) ctx0 "test query"
     (by decide)⟩

/-- C5: evaluating the code at the failing input.  On the zero-connector
engine, `Engine.Search` (from src) returns the nil collection, while
`SearchWithSources(ctx, query, nil)` — per the spec's degenerate-case words —
returns the present-but-empty collection, so the two calls do not return
exactly the same value there.  The repository's own test (BUG-014) marks
`Search`'s nil return as the bug. -/
theorem search_vs_searchWithSources_nil_divergence :
    (New []).Search ctx0 "anything" = (none, none) ∧
    (New []).SearchWithSources ctx0 "anything" none = (some [], none) ∧
    (New []).Search ctx0 "anything"
      ≠ (New []).SearchWithSources ctx0 "anything" none := by
  exact ⟨by decide, by decide, by decide⟩

/-- Supporting fact for the divergence above: away from the zero-connector
degenerate case the two entry points agree — for every engine with at least
one connector, `Search` and `SearchWithSources` with a nil filter return the
same value, so the divergence is exactly the BUG-014 slip. -/
theorem search_eq_searchWithSources_of_nil_filter (e : Engine) (ctx : Ctx)
    (q : String) (hne : e.connectors ≠ []) :
    e.Search ctx q = e.SearchWithSources ctx q none := by
  have hlen : e.connectors.length ≠ 0 := by
    simpa [List.length_eq_zero] using hne
  have hsel : selectConnectors e.connectors none = e.connectors := rfl
  unfold Engine.Search Engine.SearchWithSources
  rw [hsel, if_neg hlen, if_neg hlen]

/-- The supporting fact evaluated at a concrete engine with one connector. -/
theorem search_eq_searchWithSources_of_nil_filter_example :
    (New [goodConn]).connectors ≠ [] ∧
    (New [goodConn]).Search ctx0 "q"
      = (New [goodConn]).SearchWithSources ctx0 "q" none :=
  ⟨List.cons_ne_nil _ _,
   search_eq_searchWithSources_of_nil_filter (New [goodConn]) ctx0 "q"
     (List.cons_ne_nil _ _)⟩

/-- C6: for every engine and non-empty sources filter, `SearchWithSources`
invokes exactly the connectors whose `Name()` is listed in the filter — its
call trace is one invocation per matching connector and every invocation's
name is in the filter — and every returned result comes from some matching
connector. -/
theorem searchWithSources_filter_exactness (e : Engine) (ctx : Ctx)
    (q : String) (srcs : GoSlice String) (hsrc : srcs.elems ≠ []) :
    e.searchWithSourcesTrace ctx q srcs
      = (e.connectors.filter (fun c => c.name ∈ srcs.elems)).map
          (fun c => (⟨c.name, ctx, q⟩ : Invocation)) ∧
    (∀ inv ∈ e.searchWithSourcesTrace ctx q srcs, inv.name ∈ srcs.elems) ∧
    ∀ r ∈ (e.SearchWithSources ctx q srcs).1.elems,
      ∃ c ∈ e.connectors, c.name ∈ srcs.elems ∧
        r ∈ ((c.search ctx q).1).elems := by
  have hsel := @selectConnectors_of_elems_ne_nil e.connectors srcs hsrc
  refine ⟨?_, ?_, ?_⟩
  · unfold Engine.searchWithSourcesTrace callTrace
    rw [hsel]
    rfl
  · intro inv hinv
    unfold Engine.searchWithSourcesTrace callTrace at hinv
    rw [hsel] at hinv
    rcases List.mem_map.mp hinv with ⟨c, hcf, rfl⟩
    rcases List.mem_filter.mp hcf with ⟨_, hp⟩
    exact of_decide_eq_true hp
  · intro r hr
    unfold Engine.SearchWithSources at hr
    by_cases h0 : (selectConnectors e.connectors srcs).length = 0
    · rw [if_pos h0] at hr
      cases hr
    · rw [if_neg h0, searchConnectors_eq] at hr
      by_cases hfl :
          (failMsgs (dispatch ctx q (selectConnectors e.connectors srcs))).length
            = (selectConnectors e.connectors srcs).length
      · rw [if_pos hfl] at hr
        cases hr
      · rw [if_neg hfl] at hr
        rw [show ((drain none [] (dispatch ctx q (selectConnectors e.connectors srcs))).1,
              (none : Option String)).1
            = (drain none [] (dispatch ctx q (selectConnectors e.connectors srcs))).1
            from rfl] at hr
        rw [drain_fst_elems (dispatch ctx q (selectConnectors e.connectors srcs))
          none []] at hr
        simp only [GoSlice.elems, List.nil_append] at hr
        rw [succElems_dispatch] at hr
        rcases List.mem_flatten.mp hr with ⟨l, hl, hrl⟩
        rcases List.mem_map.mp hl with ⟨c, hcf, rfl⟩
        rcases List.mem_filter.mp hcf with ⟨hcsel, _⟩
        rw [hsel] at hcsel
        rcases List.mem_filter.mp hcsel with ⟨hcm, hname⟩
        exact ⟨c, hcm, of_decide_eq_true hname, hrl⟩

/-- Witness for C6 at the spec's concrete scenario: connectors named "gdrive"
and "gmail", filter ["gdrive"]. -/
theorem searchWithSources_filter_exactness_witness :
    (gdriveFilter.elems ≠ [] ∧
      (New [gdriveConn, gmailConn]).searchWithSourcesTrace ctx0 "q" gdriveFilter
        = ((New [gdriveConn, gmailConn]).connectors.filter
            (fun c => c.name ∈ gdriveFilter.elems)).map
            (fun c => (⟨c.name, ctx0, "q"⟩ : Invocation))) ∧
    (∀ inv ∈ (New [gdriveConn, gmailConn]).searchWithSourcesTrace ctx0 "q" gdriveFilter,
      inv.name ∈ gdriveFilter.elems) ∧
    ∀ r ∈ ((New [gdriveConn, gmailConn]).SearchWithSources ctx0 "q" gdriveFilter).1.elems,
      ∃ c ∈ (New [gdriveConn, gmailConn]).connectors,
        c.name ∈ gdriveFilter.elems ∧
        r ∈ ((c.search ctx0 "q").1).elems :=
  ⟨⟨by decide,
     (searchWithSources_filter_exactness (New [gdriveConn, gmailConn]) ctx0 "q"
       gdriveFilter (by decide)).1⟩,
   (searchWithSources_filter_exactness (New [gdriveConn, gmailConn]) ctx0 "q"
       gdriveFilter (by decide)).2⟩

/-- C7: for every engine with a non-empty connector set, calling
`SearchWithSources` with a non-empty filter none of whose names matches any
connector returns the present-but-empty collection and a nil error: unmatched
source names are silently ignored. -/
theorem searchWithSources_unknown_sources_ignored (e : Engine) (ctx : Ctx)
    (q : String) (srcs : GoSlice String) (_hcs : e.connectors ≠ [])
    (hsrc : srcs.elems ≠ [])
    (hnomatch : ∀ c ∈ e.connectors, c.name ∉ srcs.elems) :
    e.SearchWithSources ctx q srcs = (some [], none) := by
  have hsel : selectConnectors e.connectors srcs = [] := by
    rw [selectConnectors_of_elems_ne_nil hsrc]
    exact List.filter_eq_nil_iff.mpr
      (fun c hc => by simpa using hnomatch c hc)
  unfold Engine.SearchWithSources
  rw [hsel]
  rfl

/-- Witness for C7 at the test's concrete scenario: one connector named
"gdrive", filter ["nonexistent"]. -/
theorem searchWithSources_unknown_sources_ignored_witness :
    ((New [gdriveConn]).connectors ≠ [] ∧
      unknownFilter.elems ≠ [] ∧
      ∀ c ∈ (New [gdriveConn]).connectors,
        c.name ∉ unknownFilter.elems) ∧
    (New [gdriveConn]).SearchWithSources ctx0 "q" unknownFilter
      = (some [], none) :=
  ⟨⟨List.cons_ne_nil _ _, by decide, by decide⟩,
   searchWithSources_unknown_sources_ignored (New [gdriveConn]) ctx0 "q"
     unknownFilter (List.cons_ne_nil _ _) (by decide) (by decide)⟩

/-- C8: every `Engine.Search` call invokes each connector's `Search` exactly
once — the call trace is exactly one invocation per connector, in the
connector collection's order — passing the caller's context and query through
unchanged.  The statement quantifies over every query string, including the
empty and whitespace ones: no validation is performed. -/
theorem search_invokes_each_connector_once_unchanged (e : Engine) (ctx : Ctx)
    (q : String) :
    e.searchTrace ctx q
      = e.connectors.map (fun c => (⟨c.name, ctx, q⟩ : Invocation)) ∧
    (e.searchTrace ctx q).length = e.connectors.length := by
  exact ⟨rfl, List.length_map _ _⟩

end PKB
